import Mathlib

/-!
Verification of the due-date evaluation and notification-dedup engine of a
maintenance-reminder service (`app.py`).

The embedding models:
* calendar dates as integers (proleptic-Gregorian day numbers, as produced by
  `datetime.date` arithmetic; subtraction of dates in the source is day
  subtraction here);
* the external date parser (`dateutil.parser.parse(...).date()`) restricted to
  ISO `YYYY-MM-DD` strings — the only format the service itself ever writes;
  any other string is treated as unparsable (the parser raises, the model
  returns `none`);
* the sqlite table `sent_reminders(id TEXT PRIMARY KEY, last_notified DATE)`
  as an association list from key strings to day numbers, with at most one
  binding per key maintained by the primary-key upsert;
* Python truthiness of optional string fields: a field is "truthy" when it is
  present and non-empty.
-/

/-- First truthy value of a Python `a or b or …` chain over optional strings:
the first field that is present and non-empty, `none` when every field is
missing or empty (a falsy final value is only ever used as "absent" or
defaulted to `""` by the source). -/
def firstTruthy : List (Option String) → Option String
  | [] => none
  | none :: rest => firstTruthy rest
  | some s :: rest => if s = "" then firstTruthy rest else some s

/-- Drop leading whitespace characters from a character list. -/
def dropLeadingWs : List Char → List Char
  | [] => []
  | c :: rest => if c.isWhitespace then dropLeadingWs rest else c :: rest

/-- Python `str.strip()`: remove leading and trailing whitespace. -/
def pyStrip (s : String) : String :=
  String.mk ((dropLeadingWs ((dropLeadingWs s.data).reverse)).reverse)

/-- Interpret a list of characters as a base-10 numeral; `none` if empty or
any character is not a digit. -/
def digitsToNat (cs : List Char) : Option Nat :=
  if cs ≠ [] ∧ cs.all Char.isDigit then
    some (cs.foldl (fun a c => a * 10 + (c.toNat - 48)) 0)
  else none

/-- Split a character list on `'-'` (like `str.split("-")`). -/
def splitDash : List Char → List (List Char)
  | [] => [[]]
  | c :: rest =>
    if c = '-' then [] :: splitDash rest
    else
      match splitDash rest with
      | [] => [[c]]
      | h :: t => (c :: h) :: t

/-- Days in a month of the (proleptic) Gregorian calendar. -/
def daysInMonth (y m : Nat) : Nat :=
  if m = 2 then (if (y % 4 = 0 ∧ y % 100 ≠ 0) ∨ y % 400 = 0 then 29 else 28)
  else if m = 4 ∨ m = 6 ∨ m = 9 ∨ m = 11 then 30 else 31

/-- Day number of a Gregorian calendar date, with day 0 = 1970-01-01
(the count `datetime.date.toordinal` induces, shifted; only differences of
day numbers matter to the source). Valid for years ≥ 1, where all the
intermediate quantities are nonnegative. -/
def civilDays (y m d : Nat) : Int :=
  let yy : Int := if m ≤ 2 then (y : Int) - 1 else (y : Int)
  let era : Int := yy / 400
  let yoe : Int := yy - era * 400
  let mp : Int := ((m : Int) + 9) % 12
  let doy : Int := (153 * mp + 2) / 5 + (d : Int) - 1
  let doe : Int := yoe * 365 + yoe / 4 - yoe / 100 + doy
  era * 146097 + doe - 719468

/-- Model of `dateutil.parser.parse(s).date()` restricted to ISO dates:
parses `"YYYY-MM-DD"` into a day number, `none` (the parser raises) on
anything else. -/
def parseDate (s : String) : Option Int :=
  match splitDash s.data with
  | [ys, ms, ds] =>
    match digitsToNat ys, digitsToNat ms, digitsToNat ds with
    | some y, some m, some d =>
      if ys.length = 4 ∧ ms.length = 2 ∧ ds.length = 2 ∧
          1 ≤ y ∧ 1 ≤ m ∧ m ≤ 12 ∧ 1 ≤ d ∧ d ≤ daysInMonth y m then
        some (civilDays y m d)
      else none
    | _, _, _ => none
  | _ => none

/-- A maintenance entry as read by the source: every dictionary field that
`app.py` consults, each an optional string (absent key = `none`). -/
structure Entry where
  id : Option String := none
  ID : Option String := none
  Id : Option String := none
  name : Option String := none
  scheduledDate : Option String := none
  scheduled_date : Option String := none
  completedDate : Option String := none
  date : Option String := none
  completed_date : Option String := none
  deriving DecidableEq, Repr

/-- The reminder configuration, read from the environment at startup
(`REMIND_START_DAYS_BEFORE`, `REMIND_END_DAYS_AFTER`, `REMIND_REPEAT_DAYS`). -/
structure Config where
  startDaysBefore : Int
  endDaysAfter : Int
  repeatDays : Int
  deriving DecidableEq, Repr

/-- Model of `is_due(entry)` from `app.py`, with `today` and the configuration made
explicit parameters (the source reads them from the clock and from module
globals). -/
def is_due (cfg : Config) (today : Int) (e : Entry) : Bool :=
  match firstTruthy [e.scheduledDate, e.scheduled_date] with
  | none => false
  | some sched =>
    match parseDate sched with
    | none => false
    | some sd =>
      let completedParses : Bool :=
        match firstTruthy [e.completedDate, e.date, e.completed_date] with
        | none => false
        | some c => (parseDate c).isSome
      if completedParses then false
      else
        let start_date := sd - cfg.startDaysBefore
        let end_date := sd + cfg.endDaysAfter
        if today < start_date || end_date < today then false
        else if cfg.repeatDays ≤ 0 then
          decide (start_date ≤ today ∧ today ≤ end_date)
        else
          decide ((today - start_date) % cfg.repeatDays = 0)

/-- The `sent_reminders` table: an association list from key strings to
last-notified day numbers. The `id TEXT PRIMARY KEY` constraint keeps at most
one record per key; operations below preserve that invariant. The source
stores dates as ISO strings, on which sqlite's textual ordering and equality
agree with the day-number ordering and equality used here. -/
abbrev Ledger : Type := List (String × Int)

/-- Model of `get_last_notified(path, entry_id)`: the stored `last_notified` date for a
key, or `none` when no record exists (the `SELECT` returns no row). -/
def get_last_notified : Ledger → String → Option Int
  | [], _ => none
  | r :: rest, k => if r.1 = k then some r.2 else get_last_notified rest k

/-- Model of `mark_notified(path, entry_id, when)`: the sqlite
`INSERT … ON CONFLICT(id) DO UPDATE` upsert — replace the record for the key
if one exists, else append a new record. -/
def mark_notified : Ledger → String → Int → Ledger
  | [], k, when => [(k, when)]
  | r :: rest, k, when =>
    if r.1 = k then (k, when) :: rest else r :: mark_notified rest k when

/-- Model of `reset_reminder(path, entry_id)`: `DELETE FROM sent_reminders` when the
argument is the literal string `"all"`, otherwise
`DELETE … WHERE id = entry_id`; returns `true` (the success flag the CLI
prints). -/
def reset_reminder (db : Ledger) (entry_id : String) : Ledger × Bool :=
  if entry_id = "all" then ([], true)
  else ((List.filter (fun r => !(r.1 = entry_id : Bool)) db : List (String × Int)), true)

/-- Model of `prune_old_entries(path, days)`: returns 0 and deletes nothing when
`days ≤ 0`; otherwise deletes every record with
`last_notified ≤ today - days` and returns the `DELETE` rowcount. -/
def prune_old_entries (db : Ledger) (today : Int) (days : Int) : Ledger × Nat :=
  if days ≤ 0 then (db, 0)
  else
    let cutoff := today - days
    ((List.filter (fun r => !(r.2 ≤ cutoff : Bool)) db : List (String × Int)),
      (List.filter (fun r => (r.2 ≤ cutoff : Bool)) db).length)

/-- The identity-key computation of `filter_and_notify`:
`e.get("id") or e.get("ID") or e.get("Id")`, and when that chain is falsy,
`(e.get("name", "") + "::" + str(e.get("scheduledDate") or
e.get("scheduled_date") or "")).strip()`. -/
def entry_key (e : Entry) : String :=
  match firstTruthy [e.id, e.ID, e.Id] with
  | some s => s
  | none =>
    pyStrip ((e.name.getD "") ++ "::" ++
      ((firstTruthy [e.scheduledDate, e.scheduled_date]).getD ""))

/-- The filtering loop of `filter_and_notify(entries)`: build the `to_notify`
list of `(eid, entry)` pairs, skipping entries that are not due and entries
whose ledger record already carries today's date. The ledger is only read
during the loop; writes happen afterwards in `commit_notified`. -/
def filter_and_notify (cfg : Config) (today : Int) (db : Ledger) :
    List Entry → List (String × Entry)
  | [] => []
  | e :: rest =>
    let eid := entry_key e
    if !is_due cfg today e then filter_and_notify cfg today db rest
    else if get_last_notified db eid = some today then
      filter_and_notify cfg today db rest
    else (eid, e) :: filter_and_notify cfg today db rest

/-- The write-back loop at the end of `filter_and_notify`:
`mark_notified(DB_PATH, eid, today)` for every pair collected. -/
def commit_notified (db : Ledger) (to_notify : List (String × Entry))
    (today : Int) : Ledger :=
  to_notify.foldl (fun d p => mark_notified d p.1 today) db

/-! ### Helper lemmas about the evaluator -/

theorem firstTruthy_nil : firstTruthy [] = none := rfl

theorem firstTruthy_cons_none (l : List (Option String)) :
    firstTruthy (none :: l) = firstTruthy l := rfl

theorem firstTruthy_cons_some (s : String) (l : List (Option String)) :
    firstTruthy (some s :: l) = if s = "" then firstTruthy l else some s := rfl

theorem parseDate_empty : parseDate "" = none := rfl

/-- When the scheduled-date chain is falsy, `is_due` is `false`. -/
theorem is_due_no_sched (cfg : Config) (today : Int) (e : Entry)
    (h : firstTruthy [e.scheduledDate, e.scheduled_date] = none) :
    is_due cfg today e = false := by
  simp [is_due, h]

/-- When the scheduled date does not parse, `is_due` is `false`. -/
theorem is_due_bad_sched (cfg : Config) (today : Int) (e : Entry) (sched : String)
    (h1 : firstTruthy [e.scheduledDate, e.scheduled_date] = some sched)
    (h2 : parseDate sched = none) :
    is_due cfg today e = false := by
  simp [is_due, h1, h2]

/-- When the completion chain is truthy and parses, `is_due` is `false`,
whatever the scheduled date looks like. -/
theorem is_due_completion_parses (cfg : Config) (today : Int) (e : Entry) (c : String)
    (h3 : firstTruthy [e.completedDate, e.date, e.completed_date] = some c)
    (hp : (parseDate c).isSome = true) :
    is_due cfg today e = false := by
  cases hs : firstTruthy [e.scheduledDate, e.scheduled_date] with
  | none => exact is_due_no_sched cfg today e hs
  | some sched =>
    cases hps : parseDate sched with
    | none => exact is_due_bad_sched cfg today e sched hs hps
    | some sd => simp [is_due, hs, hps, h3, hp]

/-- Full evaluation of `is_due` once the scheduled date parses and the
completion chain is falsy. -/
theorem is_due_eval (cfg : Config) (today : Int) (e : Entry) (sched : String) (sd : Int)
    (h1 : firstTruthy [e.scheduledDate, e.scheduled_date] = some sched)
    (h2 : parseDate sched = some sd)
    (h3 : firstTruthy [e.completedDate, e.date, e.completed_date] = none) :
    is_due cfg today e =
      (if today < sd - cfg.startDaysBefore || sd + cfg.endDaysAfter < today then false
       else if cfg.repeatDays ≤ 0 then
         decide (sd - cfg.startDaysBefore ≤ today ∧ today ≤ sd + cfg.endDaysAfter)
       else
         decide ((today - (sd - cfg.startDaysBefore)) % cfg.repeatDays = 0)) := by
  simp [is_due, h1, h2, h3]

/-! ### C4, C8, C9: guard clauses of the evaluator -/

/-- C4: an entry whose `completedDate` is present and parses as a date is
never due, for every `today` and every configuration. -/
theorem completed_never_due (cfg : Config) (today : Int) (e : Entry) (c : String) (n : Int)
    (hc : e.completedDate = some c) (hp : parseDate c = some n) :
    is_due cfg today e = false := by
  have hcne : c ≠ "" := by
    intro h
    rw [h, parseDate_empty] at hp
    cases hp
  refine is_due_completion_parses cfg today e c ?_ ?_
  · rw [hc, firstTruthy_cons_some, if_neg hcne]
  · rw [hp]; rfl

/-- C4 witness: a concrete completed entry inside its reminder window is not
due. -/
theorem completed_never_due_witness :
    is_due ⟨3, 2, 0⟩ (civilDays 2024 6 10)
      { scheduledDate := some "2024-06-10", completedDate := some "2024-06-01" } = false :=
  completed_never_due ⟨3, 2, 0⟩ (civilDays 2024 6 10)
    { scheduledDate := some "2024-06-10", completedDate := some "2024-06-01" }
    "2024-06-01" (civilDays 2024 6 1) rfl rfl

/-- C9: the evaluator reads the generic `date` field as a completion marker:
with no `completedDate` and no `completed_date`, a truthy parsable `date`
field alone forces `is_due` to `false` for every `today` and config. -/
theorem date_field_blocks_due (cfg : Config) (today : Int) (e : Entry) (s : String) (n : Int)
    (h1 : e.completedDate = none) (h2 : e.completed_date = none)
    (hd : e.date = some s) (hs : s ≠ "") (hp : parseDate s = some n) :
    is_due cfg today e = false := by
  refine is_due_completion_parses cfg today e s ?_ ?_
  · rw [h1, hd, firstTruthy_cons_none, firstTruthy_cons_some, if_neg hs]
  · rw [hp]; rfl

/-- C9 witness: a concrete entry that would be due today (inside the window,
cadence matched) is suppressed by its `date` field. -/
theorem date_field_blocks_due_witness :
    is_due ⟨0, 0, 0⟩ (civilDays 2024 6 10)
      { scheduledDate := some "2024-06-10", date := some "2024-05-01" } = false ∧
    is_due ⟨0, 0, 0⟩ (civilDays 2024 6 10)
      { scheduledDate := some "2024-06-10" } = true := by
  constructor
  · exact date_field_blocks_due ⟨0, 0, 0⟩ (civilDays 2024 6 10)
      { scheduledDate := some "2024-06-10", date := some "2024-05-01" }
      "2024-05-01" (civilDays 2024 5 1) rfl rfl rfl (by decide) rfl
  · decide

/-- C8 counterexample: the claim says `IsDue` is `false` whenever the
`scheduledDate` field is missing; but the evaluator also accepts the
snake_case alias `scheduled_date`, so this entry with no `scheduledDate` is
due. -/
def e_c8 : Entry := { scheduled_date := some "2024-06-10" }

/-- C8 counterexample: an entry with `scheduledDate` missing for which
`is_due` nevertheless returns `true` (via the `scheduled_date` alias). -/
theorem fail_closed_counterexample :
    e_c8.scheduledDate = none ∧ is_due ⟨0, 0, 0⟩ (civilDays 2024 6 10) e_c8 = true := by
  decide

/-- C8 (amended): when the first present-and-non-empty of `scheduledDate` and
`scheduled_date` is absent or fails to parse as a date, `is_due` returns
`false` (without raising), for every `today` and every configuration. -/
theorem fail_closed_amended (cfg : Config) (today : Int) (e : Entry)
    (h : ∀ s, firstTruthy [e.scheduledDate, e.scheduled_date] = some s → parseDate s = none) :
    is_due cfg today e = false := by
  cases hs : firstTruthy [e.scheduledDate, e.scheduled_date] with
  | none => exact is_due_no_sched cfg today e hs
  | some sched => exact is_due_bad_sched cfg today e sched hs (h sched hs)

/-- C8 witness: a concrete entry whose scheduled date is unparsable garbage is
not due. -/
theorem fail_closed_amended_witness :
    is_due ⟨3, 2, 0⟩ 19884 { scheduledDate := some "next tuesday" } = false := by
  refine fail_closed_amended ⟨3, 2, 0⟩ 19884 { scheduledDate := some "next tuesday" } ?_
  intro s hs
  simp [firstTruthy] at hs
  rw [← hs]
  decide

/-! ### C3: daily-reminder policy, C2: repeat cadence -/

/-- A nonnegative integer is a multiple of a positive `k` exactly when it is
`i * k` for a natural `i`. -/
theorem emod_eq_zero_iff_exists_nat (a k : Int) (hk : 0 < k) (ha : 0 ≤ a) :
    a % k = 0 ↔ ∃ i : Nat, a = (i : Int) * k := by
  constructor
  · intro h
    obtain ⟨c, hc⟩ := Int.dvd_of_emod_eq_zero h
    have hc0 : 0 ≤ c := by
      by_contra hneg
      push_neg at hneg
      have hlt : k * c < 0 := mul_neg_of_pos_of_neg hk hneg
      rw [hc] at ha
      exact absurd ha (not_le.mpr hlt)
    refine ⟨c.toNat, ?_⟩
    rw [hc, mul_comm]
    congr 1
    exact (Int.toNat_of_nonneg hc0).symm
  · rintro ⟨i, rfl⟩
    rw [mul_comm]
    exact Int.mul_emod_right k i

/-- In-window characterisation of `is_due` for `repeatDays ≤ 0`: due exactly
on the days of the closed window. -/
theorem is_due_daily_iff (cfg : Config) (today sd : Int) (e : Entry) (s : String)
    (hrep : cfg.repeatDays ≤ 0)
    (hs : e.scheduledDate = some s) (hne : s ≠ "") (hp : parseDate s = some sd)
    (hc1 : e.completedDate = none) (hc2 : e.date = none) (hc3 : e.completed_date = none) :
    is_due cfg today e = true ↔
      sd - cfg.startDaysBefore ≤ today ∧ today ≤ sd + cfg.endDaysAfter := by
  have hft : firstTruthy [e.scheduledDate, e.scheduled_date] = some s := by
    rw [hs, firstTruthy_cons_some, if_neg hne]
  have hcomp : firstTruthy [e.completedDate, e.date, e.completed_date] = none := by
    rw [hc1, hc2, hc3]; rfl
  rw [is_due_eval cfg today e s sd hft hp hcomp]
  split
  next hw =>
    simp only [Bool.or_eq_true, decide_eq_true_eq] at hw
    constructor
    · intro h; cases h
    · rintro ⟨h1, h2⟩
      rcases hw with hw | hw <;> omega
  next hw =>
    simp only [decide_eq_true_eq]

/-- In-window characterisation of `is_due` for `repeatDays = k > 0`: due
exactly on `start + i * k` within the closed window. -/
theorem is_due_repeat_iff (cfg : Config) (today sd : Int) (e : Entry) (s : String)
    (hrep : 0 < cfg.repeatDays)
    (hs : e.scheduledDate = some s) (hne : s ≠ "") (hp : parseDate s = some sd)
    (hc1 : e.completedDate = none) (hc2 : e.date = none) (hc3 : e.completed_date = none) :
    is_due cfg today e = true ↔
      sd - cfg.startDaysBefore ≤ today ∧ today ≤ sd + cfg.endDaysAfter ∧
      ∃ i : Nat, today = sd - cfg.startDaysBefore + (i : Int) * cfg.repeatDays := by
  have hft : firstTruthy [e.scheduledDate, e.scheduled_date] = some s := by
    rw [hs, firstTruthy_cons_some, if_neg hne]
  have hcomp : firstTruthy [e.completedDate, e.date, e.completed_date] = none := by
    rw [hc1, hc2, hc3]; rfl
  rw [is_due_eval cfg today e s sd hft hp hcomp]
  have hrep' : ¬ cfg.repeatDays ≤ 0 := by omega
  split
  next hw =>
    simp only [Bool.or_eq_true, decide_eq_true_eq] at hw
    constructor
    · intro h; cases h
    · rintro ⟨h1, h2, -⟩
      rcases hw with hw | hw <;> omega
  next hw =>
    simp only [Bool.or_eq_true, decide_eq_true_eq, not_or, not_lt] at hw
    obtain ⟨hw1, hw2⟩ := hw
    simp only [decide_eq_true_eq]
    rw [emod_eq_zero_iff_exists_nat _ _ hrep (by omega)]
    constructor
    · rintro ⟨i, hi⟩
      refine ⟨by omega, by omega, i, ?_⟩
      rw [← hi]; ring
    · rintro ⟨-, -, i, hi⟩
      refine ⟨i, ?_⟩
      rw [hi]; ring

/-- The concrete entry of the spec's scenarios:
`scheduledDate = 2024-06-10`, nothing else set. -/
def scenario_entry : Entry := { scheduledDate := some "2024-06-10" }

/-- C3: with `repeatDays ≤ 0`, an uncompleted entry with parsable scheduled
date is due exactly on the days of
`[scheduledDate - startDaysBefore, scheduledDate + endDaysAfter]`; with the
all-zero configuration it is due exactly on `scheduledDate`. -/
theorem daily_window (cfg : Config) (today sd : Int) (e : Entry) (s : String)
    (hrep : cfg.repeatDays ≤ 0)
    (hs : e.scheduledDate = some s) (hne : s ≠ "") (hp : parseDate s = some sd)
    (hc1 : e.completedDate = none) (hc2 : e.date = none) (hc3 : e.completed_date = none) :
    (is_due cfg today e = true ↔
      sd - cfg.startDaysBefore ≤ today ∧ today ≤ sd + cfg.endDaysAfter) ∧
    (cfg.startDaysBefore = 0 → cfg.endDaysAfter = 0 →
      (is_due cfg today e = true ↔ today = sd)) := by
  have key := is_due_daily_iff cfg today sd e s hrep hs hne hp hc1 hc2 hc3
  refine ⟨key, fun h0 h1 => ?_⟩
  rw [key, h0, h1]
  omega

/-- C3 witness: the scenario entry with window `[-3, +2]` and `repeatDays = 0`
is due on 2024-06-07; with the all-zero configuration it is due on 2024-06-10
and that equality characterises its due day. -/
theorem daily_window_witness :
    (is_due ⟨3, 2, 0⟩ (civilDays 2024 6 7) scenario_entry = true ↔
      civilDays 2024 6 10 - 3 ≤ civilDays 2024 6 7 ∧
      civilDays 2024 6 7 ≤ civilDays 2024 6 10 + 2) ∧
    (is_due ⟨0, 0, 0⟩ (civilDays 2024 6 10) scenario_entry = true ↔
      civilDays 2024 6 10 = civilDays 2024 6 10) := by
  constructor
  · exact (daily_window ⟨3, 2, 0⟩ (civilDays 2024 6 7) (civilDays 2024 6 10)
      scenario_entry "2024-06-10" (by decide) rfl (by decide) (by decide)
      rfl rfl rfl).1
  · exact (daily_window ⟨0, 0, 0⟩ (civilDays 2024 6 10) (civilDays 2024 6 10)
      scenario_entry "2024-06-10" (by decide) rfl (by decide) (by decide)
      rfl rfl rfl).2 rfl rfl

/-- C2: with `repeatDays = k > 0`, an uncompleted entry with parsable
scheduled date is due exactly on `{start, start + k, start + 2k, …}`
intersected with the closed window; and the scenario entry
(`scheduledDate = 2024-06-10`, `startDaysBefore = 3`, `endDaysAfter = 2`,
`repeatDays = 2`) is due on 2024-06-07, 2024-06-09 and 2024-06-11 only. -/
theorem repeat_cadence (cfg : Config) (today sd : Int) (e : Entry) (s : String)
    (hrep : 0 < cfg.repeatDays)
    (hs : e.scheduledDate = some s) (hne : s ≠ "") (hp : parseDate s = some sd)
    (hc1 : e.completedDate = none) (hc2 : e.date = none) (hc3 : e.completed_date = none) :
    (is_due cfg today e = true ↔
      sd - cfg.startDaysBefore ≤ today ∧ today ≤ sd + cfg.endDaysAfter ∧
      ∃ i : Nat, today = sd - cfg.startDaysBefore + (i : Int) * cfg.repeatDays) ∧
    (∀ t : Int, is_due ⟨3, 2, 2⟩ t scenario_entry = true ↔
      t = civilDays 2024 6 7 ∨ t = civilDays 2024 6 9 ∨ t = civilDays 2024 6 11) := by
  refine ⟨is_due_repeat_iff cfg today sd e s hrep hs hne hp hc1 hc2 hc3, fun t => ?_⟩
  rw [is_due_repeat_iff ⟨3, 2, 2⟩ t (civilDays 2024 6 10) scenario_entry "2024-06-10"
      (by decide) rfl (by decide) (by decide) rfl rfl rfl]
  have h7 : civilDays 2024 6 7 = 19881 := by decide
  have h9 : civilDays 2024 6 9 = 19883 := by decide
  have h10 : civilDays 2024 6 10 = 19884 := by decide
  have h11 : civilDays 2024 6 11 = 19885 := by decide
  rw [h7, h9, h10, h11]
  constructor
  · rintro ⟨ha, hb, i, hi⟩
    simp only [Config.startDaysBefore, Config.endDaysAfter, Config.repeatDays] at ha hb hi
    omega
  · rintro (rfl | rfl | rfl)
    · exact ⟨by decide, by decide, 0, by decide⟩
    · exact ⟨by decide, by decide, 1, by decide⟩
    · exact ⟨by decide, by decide, 2, by decide⟩

/-- C2 witness: the scenario entry with `repeatDays = 2` is due on 2024-06-09
and not due on 2024-06-08. -/
theorem repeat_cadence_witness :
    is_due ⟨3, 2, 2⟩ (civilDays 2024 6 9) scenario_entry = true ∧
    is_due ⟨3, 2, 2⟩ (civilDays 2024 6 8) scenario_entry = false := by
  have h := repeat_cadence ⟨3, 2, 2⟩ (civilDays 2024 6 9) (civilDays 2024 6 10)
    scenario_entry "2024-06-10" (by decide) rfl (by decide) (by decide) rfl rfl rfl
  constructor
  · exact (h.2 (civilDays 2024 6 9)).mpr (Or.inr (Or.inl rfl))
  · cases hb : is_due ⟨3, 2, 2⟩ (civilDays 2024 6 8) scenario_entry
    · rfl
    · exfalso
      rcases (h.2 (civilDays 2024 6 8)).mp hb with hx | hx | hx <;>
        exact absurd hx (by decide)

/-! ### Helper lemmas about the ledger -/

theorem get_last_notified_eq_none (db : Ledger) (k : String) :
    get_last_notified db k = none ↔ ∀ r ∈ db, r.1 ≠ k := by
  induction db with
  | nil => simp [get_last_notified]
  | cons r rest ih =>
    by_cases hr : r.1 = k
    · simp only [get_last_notified, if_pos hr]
      simp only [List.mem_cons]
      constructor
      · intro h; cases h
      · intro h; exact absurd hr (h r (Or.inl rfl))
    · simp only [get_last_notified, if_neg hr, ih, List.mem_cons]
      constructor
      · intro h r' hr'
        cases hr' with
        | inl he => rw [he]; exact hr
        | inr hm => exact h r' hm
      · intro h r' hm; exact h r' (Or.inr hm)

theorem get_mark_same (db : Ledger) (k : String) (d : Int) :
    get_last_notified (mark_notified db k d) k = some d := by
  induction db with
  | nil => simp [mark_notified, get_last_notified]
  | cons r rest ih =>
    by_cases hr : r.1 = k
    · simp [mark_notified, hr, get_last_notified]
    · simp [mark_notified, hr, get_last_notified, ih]

theorem get_mark_other (db : Ledger) (k k' : String) (d : Int) (hk : k' ≠ k) :
    get_last_notified (mark_notified db k d) k' = get_last_notified db k' := by
  have hk' : ¬ (k = k') := fun h => hk h.symm
  induction db with
  | nil => simp [mark_notified, get_last_notified, hk']
  | cons r rest ih =>
    by_cases hr : r.1 = k
    · have hrk' : ¬ (r.1 = k') := by rw [hr]; exact hk'
      simp [mark_notified, hr, get_last_notified, hk', hrk']
    · simp only [mark_notified, if_neg hr, get_last_notified]
      by_cases hr2 : r.1 = k'
      · simp [hr2]
      · simp [hr2, ih]

/-! ### C5: prune exactness and frame -/

/-- C5: `prune_old_entries` returns `(db, 0)` when the horizon is
nonpositive; otherwise it keeps exactly the records with
`last_notified > today - days` (as a sublist, so untouched records keep
their contents and order) and returns the count of records with
`last_notified ≤ today - days`. -/
theorem prune_exact_frame (db : Ledger) (today days : Int) :
    (days ≤ 0 → prune_old_entries db today days = (db, 0)) ∧
    (0 < days →
      (∀ r : String × Int,
        r ∈ (prune_old_entries db today days).1 ↔ r ∈ db ∧ today - days < r.2) ∧
      List.Sublist (prune_old_entries db today days).1 db ∧
      (prune_old_entries db today days).2 =
        List.countP (fun r => (r.2 ≤ today - days : Bool)) db) := by
  constructor
  · intro h
    simp [prune_old_entries, h]
  · intro h
    have h' : ¬ days ≤ 0 := by omega
    have hfst : (prune_old_entries db today days).1 =
        List.filter (fun r => !(r.2 ≤ today - days : Bool)) db := by
      simp [prune_old_entries, h']
    refine ⟨?_, ?_, ?_⟩
    · intro r
      rw [hfst, List.mem_filter]
      constructor
      · rintro ⟨h1, h2⟩
        refine ⟨h1, ?_⟩
        simp only [Bool.not_eq_true', decide_eq_false_iff_not] at h2
        omega
      · rintro ⟨h1, h2⟩
        refine ⟨h1, ?_⟩
        simp only [Bool.not_eq_true', decide_eq_false_iff_not]
        omega
    · rw [hfst]
      exact List.filter_sublist db
    · simp only [prune_old_entries, if_neg h']
      rw [List.countP_eq_length_filter]

/-- C5 witness: pruning a concrete three-record ledger with horizon 2 on day
100 deletes the two records on or before day 98 and keeps the one on day 99;
horizon 0 is a no-op. -/
theorem prune_exact_frame_witness :
    prune_old_entries [("a", 98), ("b", 99), ("c", 90)] 100 0 =
      ([("a", 98), ("b", 99), ("c", 90)], 0) ∧
    (("b", 99) ∈ (prune_old_entries [("a", 98), ("b", 99), ("c", 90)] 100 2).1 ↔
      ("b", 99) ∈ ([("a", 98), ("b", 99), ("c", 90)] : Ledger) ∧ (98 : Int) < 99) ∧
    (prune_old_entries [("a", 98), ("b", 99), ("c", 90)] 100 2).2 =
      List.countP (fun r => (r.2 ≤ (98 : Int) : Bool)) [("a", 98), ("b", 99), ("c", 90)] := by
  refine ⟨(prune_exact_frame [("a", 98), ("b", 99), ("c", 90)] 100 0).1 (by decide), ?_, ?_⟩
  · exact ((prune_exact_frame [("a", 98), ("b", 99), ("c", 90)] 100 2).2 (by decide)).1 ("b", 99)
  · exact ((prune_exact_frame [("a", 98), ("b", 99), ("c", 90)] 100 2).2 (by decide)).2.2

/-! ### C6: ledger round-trips -/

/-- C6: `Upsert` then `Get` on the same key returns the upserted date whether
or not a record existed, other keys are untouched, the one-record-per-key
invariant is preserved (exactly one record for the key remains), and
`Delete` then `Get` returns absence, with the operation still reporting
success (`true`, no exception) on a missing key. -/
theorem ledger_roundtrip (db : Ledger) (k : String) (d : Int) :
    get_last_notified (mark_notified db k d) k = some d ∧
    (∀ k', k' ≠ k →
      get_last_notified (mark_notified db k d) k' = get_last_notified db k') ∧
    (List.countP (fun r => (r.1 = k : Bool)) db ≤ 1 →
      List.countP (fun r => (r.1 = k : Bool)) (mark_notified db k d) = 1) ∧
    get_last_notified (reset_reminder db k).1 k = none ∧
    (reset_reminder db k).2 = true := by
  refine ⟨get_mark_same db k d, fun k' hk => get_mark_other db k k' d hk, ?_, ?_, ?_⟩
  · induction db with
    | nil => simp [mark_notified]
    | cons r rest ih =>
      by_cases hr : r.1 = k
      · intro h
        simp [List.countP_cons, hr] at h
        simp [mark_notified, hr, List.countP_cons]
        exact h
      · intro h
        simp [List.countP_cons, hr] at h
        simp [mark_notified, hr, List.countP_cons]
        exact ih h
  · by_cases hk : k = "all"
    · simp [reset_reminder, hk, get_last_notified]
    · rw [show (reset_reminder db k).1 =
          List.filter (fun r => !(r.1 = k : Bool)) db by simp [reset_reminder, hk]]
      rw [get_last_notified_eq_none]
      intro r hr
      have := List.of_mem_filter hr
      simpa using this
  · by_cases hk : k = "all" <;> simp [reset_reminder, hk]

/-- C6 witness: on a concrete ledger, upserting key `"a"` (which exists) and
reading it back gives the new date, key `"b"` is unchanged, the invariant
holds, and deleting the absent key `"z"` then reading gives absence with
success reported. -/
theorem ledger_roundtrip_witness :
    get_last_notified (mark_notified [("a", 1), ("b", 2)] "a" 7) "a" = some 7 ∧
    get_last_notified (mark_notified [("a", 1), ("b", 2)] "a" 7) "b" =
      get_last_notified [("a", 1), ("b", 2)] "b" ∧
    List.countP (fun r => (r.1 = "a" : Bool)) (mark_notified [("a", 1), ("b", 2)] "a" 7) = 1 ∧
    get_last_notified (reset_reminder [("a", 1), ("b", 2)] "z").1 "z" = none ∧
    (reset_reminder [("a", 1), ("b", 2)] "z").2 = true := by
  have h := ledger_roundtrip [("a", 1), ("b", 2)] "a" 7
  have h' := ledger_roundtrip [("a", 1), ("b", 2)] "z" 7
  exact ⟨h.1, h.2.1 "b" (by decide), h.2.2.1 (by decide), h'.2.2.2.1, h'.2.2.2.2⟩

/-! ### C10: the reserved "all" argument of reset -/

/-- C10: resetting with the literal argument `"all"` empties the whole
ledger — so a record keyed `"all"` cannot be deleted individually, the call
wipes everything — while for any other argument exactly the records with that
key are removed and every other record survives. -/
theorem reset_all_reserved (db : Ledger) (k : String) :
    (reset_reminder db "all").1 = [] ∧
    (k ≠ "all" →
      ∀ r : String × Int, r ∈ (reset_reminder db k).1 ↔ r ∈ db ∧ r.1 ≠ k) := by
  constructor
  · simp [reset_reminder]
  · intro hk r
    rw [show (reset_reminder db k).1 =
        List.filter (fun r => !(r.1 = k : Bool)) db by simp [reset_reminder, hk]]
    rw [List.mem_filter]
    simp

/-! ### C7: identity key derivation (corrected) -/

/-- Python `a or b` on two optional string fields: `b` when `a` is falsy. -/
def pickTruthy (a b : Option String) : Option String :=
  match a with
  | some s => if s = "" then b else some s
  | none => b

theorem firstTruthy_eq_pick (a : Option String) (l : List (Option String)) :
    firstTruthy (a :: l) = pickTruthy a (firstTruthy l) := by
  cases a with
  | none => rfl
  | some s => by_cases hs : s = "" <;> simp [firstTruthy, pickTruthy, hs]

/-- The key derivation exactly as claim C7 words it: the `id` field when
present, otherwise the plain concatenation `name + "::" + scheduledDate`. -/
def keySpecClaimed (e : Entry) : String :=
  match e.id with
  | some s => s
  | none => (e.name.getD "") ++ "::" ++ (e.scheduledDate.getD "")

/-- The concrete entry refuting claim C7: an id-less entry whose name carries
a leading space. -/
def e_c7 : Entry := { name := some " pump", scheduledDate := some "2024-06-10" }

/-- C7 counterexample: the loop strips surrounding whitespace from the
fallback key (`.strip()`), so the derived key differs from the claimed
`name + "::" + scheduledDate` on a name with leading whitespace. -/
theorem entry_key_counterexample :
    keySpecClaimed e_c7 = " pump::2024-06-10" ∧
    entry_key e_c7 = "pump::2024-06-10" ∧
    entry_key e_c7 ≠ keySpecClaimed e_c7 := by
  decide

/-- The amended claim C7's key derivation, written from its words: the first
present-and-non-empty of `id`, `ID`, `Id` when one exists; otherwise the
whitespace-stripped concatenation of the name (default empty), `"::"`, and
the first present-and-non-empty of `scheduledDate`, `scheduled_date`
(default empty). Two polls presenting the same fields still derive the same
key, this being a function of the entry's fields. -/
def keySpecAmended (e : Entry) : String :=
  match pickTruthy e.id (pickTruthy e.ID (pickTruthy e.Id none)) with
  | some s => s
  | none =>
    pyStrip ((e.name.getD "") ++ "::" ++
      ((pickTruthy e.scheduledDate (pickTruthy e.scheduled_date none)).getD ""))

/-- C7 (amended): the dedup key the scheduler computes for every entry is
exactly the amended derivation. -/
theorem entry_key_amended (e : Entry) : entry_key e = keySpecAmended e := by
  unfold entry_key keySpecAmended
  rw [show firstTruthy [e.id, e.ID, e.Id] =
        pickTruthy e.id (pickTruthy e.ID (pickTruthy e.Id none)) by
      rw [firstTruthy_eq_pick, firstTruthy_eq_pick, firstTruthy_eq_pick, firstTruthy_nil]]
  rw [show firstTruthy [e.scheduledDate, e.scheduled_date] =
        pickTruthy e.scheduledDate (pickTruthy e.scheduled_date none) by
      rw [firstTruthy_eq_pick, firstTruthy_eq_pick, firstTruthy_nil]]

/-! ### C1: scheduler dedup idempotence -/

theorem filter_and_notify_cons (cfg : Config) (today : Int) (db : Ledger)
    (e : Entry) (rest : List Entry) :
    filter_and_notify cfg today db (e :: rest) =
      if is_due cfg today e = false then filter_and_notify cfg today db rest
      else if get_last_notified db (entry_key e) = some today then
        filter_and_notify cfg today db rest
      else (entry_key e, e) :: filter_and_notify cfg today db rest := by
  simp only [filter_and_notify]
  cases is_due cfg today e <;> simp

theorem mem_filter_and_notify_cons (cfg : Config) (today : Int) (db : Ledger)
    (e : Entry) (rest : List Entry) (p : String × Entry)
    (h : p ∈ filter_and_notify cfg today db rest) :
    p ∈ filter_and_notify cfg today db (e :: rest) := by
  rw [filter_and_notify_cons]
  split
  · exact h
  · split
    · exact h
    · exact List.mem_cons_of_mem _ h

/-- Every pair the filtering loop emits had no today-dated ledger record. -/
theorem run_excludes_notified_today (cfg : Config) (today : Int) (db : Ledger)
    (entries : List Entry) (p : String × Entry)
    (h : p ∈ filter_and_notify cfg today db entries) :
    get_last_notified db p.1 ≠ some today := by
  induction entries with
  | nil => cases h
  | cons e rest ih =>
    rw [filter_and_notify_cons] at h
    split at h
    · exact ih h
    · split at h
      · exact ih h
      next hget =>
        cases h with
        | head => exact hget
        | tail _ hm => exact ih hm

/-- If every due entry already has a today-dated record, the loop emits
nothing. -/
theorem run_nil_of_notified (cfg : Config) (today : Int) (db : Ledger)
    (entries : List Entry)
    (h : ∀ e ∈ entries, is_due cfg today e = true →
      get_last_notified db (entry_key e) = some today) :
    filter_and_notify cfg today db entries = [] := by
  induction entries with
  | nil => rfl
  | cons e rest ih =>
    rw [filter_and_notify_cons]
    have ih' := ih (fun e' he' hd' => h e' (List.mem_cons_of_mem _ he') hd')
    by_cases hd : is_due cfg today e = false
    · rw [if_pos hd]; exact ih'
    · rw [if_neg hd]
      have hd' : is_due cfg today e = true := by
        cases hb : is_due cfg today e
        · exact absurd hb hd
        · rfl
      rw [if_pos (h e (List.mem_cons_self _ _) hd')]
      exact ih'

/-- Every due entry is either emitted by the loop or already carries a
today-dated record. -/
theorem run_covers_due (cfg : Config) (today : Int) (db : Ledger)
    (entries : List Entry) (e : Entry) (he : e ∈ entries)
    (hd : is_due cfg today e = true) :
    (entry_key e, e) ∈ filter_and_notify cfg today db entries ∨
      get_last_notified db (entry_key e) = some today := by
  induction entries with
  | nil => cases he
  | cons e' rest ih =>
    cases he with
    | head =>
      by_cases hget : get_last_notified db (entry_key e) = some today
      · exact Or.inr hget
      · refine Or.inl ?_
        rw [filter_and_notify_cons]
        rw [if_neg (by rw [hd]; intro hx; cases hx), if_neg hget]
        exact List.mem_cons_self _ _
    | tail _ hm =>
      rcases ih hm with hmem | hget
      · exact Or.inl (mem_filter_and_notify_cons cfg today db e' rest _ hmem)
      · exact Or.inr hget

/-- After a commit, every key in the committed set reads back as today. -/
theorem get_commit_not_mem (db : Ledger) (ns : List (String × Entry)) (t : Int)
    (k : String) (h : k ∉ ns.map Prod.fst) :
    get_last_notified (commit_notified db ns t) k = get_last_notified db k := by
  induction ns generalizing db with
  | nil => rfl
  | cons p rest ih =>
    simp only [List.map_cons, List.mem_cons, not_or] at h
    show get_last_notified (commit_notified (mark_notified db p.1 t) rest t) k = _
    rw [ih (mark_notified db p.1 t) h.2]
    exact get_mark_other db p.1 k t h.1

theorem get_commit_mem (db : Ledger) (ns : List (String × Entry)) (t : Int)
    (k : String) (h : k ∈ ns.map Prod.fst) :
    get_last_notified (commit_notified db ns t) k = some t := by
  induction ns generalizing db with
  | nil => cases h
  | cons p rest ih =>
    show get_last_notified (commit_notified (mark_notified db p.1 t) rest t) k = some t
    by_cases hr : k ∈ rest.map Prod.fst
    · exact ih (mark_notified db p.1 t) hr
    · simp only [List.map_cons, List.mem_cons] at h
      have hk : k = p.1 := by
        rcases h with h | h
        · exact h
        · exact absurd h hr
      rw [get_commit_not_mem (mark_notified db p.1 t) rest t k hr, hk]
      exact get_mark_same db p.1 t

/-- C1: the scheduler never emits an entry whose ledger record already holds
today's date even when it is due; and rerunning it on the same `today` after
committing the first run's notify set to the ledger emits nothing at all —
in particular nothing for any entry notified the first time. -/
theorem scheduler_idempotent (cfg : Config) (today : Int) (db : Ledger)
    (entries : List Entry) :
    (∀ p ∈ filter_and_notify cfg today db entries,
      get_last_notified db p.1 ≠ some today) ∧
    filter_and_notify cfg today
      (commit_notified db (filter_and_notify cfg today db entries) today)
      entries = [] := by
  constructor
  · exact fun p hp => run_excludes_notified_today cfg today db entries p hp
  · apply run_nil_of_notified
    intro e he hd
    rcases run_covers_due cfg today db entries e he hd with hmem | hget
    · exact get_commit_mem db _ today (entry_key e)
        (List.mem_map_of_mem Prod.fst hmem)
    · by_cases hk : entry_key e ∈
          (filter_and_notify cfg today db entries).map Prod.fst
      · exact get_commit_mem db _ today (entry_key e) hk
      · rw [get_commit_not_mem db _ today (entry_key e) hk]
        exact hget

/-- C1 witness: one concrete due entry on an empty ledger is emitted on the
first run (so its key had no today-dated record), and a second run after the
commit emits nothing. -/
theorem scheduler_idempotent_witness :
    get_last_notified ([] : Ledger) (entry_key scenario_entry) ≠
      some (civilDays 2024 6 10) ∧
    filter_and_notify ⟨0, 0, 0⟩ (civilDays 2024 6 10)
      (commit_notified []
        (filter_and_notify ⟨0, 0, 0⟩ (civilDays 2024 6 10) [] [scenario_entry])
        (civilDays 2024 6 10))
      [scenario_entry] = [] := by
  have h := scheduler_idempotent ⟨0, 0, 0⟩ (civilDays 2024 6 10) [] [scenario_entry]
  exact ⟨h.1 (entry_key scenario_entry, scenario_entry) (by decide), h.2⟩

/-- C10 witness: resetting with
`"all"` removes that record and the unrelated record `("b", 2)` as well,
while resetting `"b"` keeps `("all", 1)` and drops only `("b", 2)`. -/
theorem reset_all_reserved_witness :
    (reset_reminder [("all", 1), ("b", 2)] "all").1 = [] ∧
    (("all", 1) ∈ (reset_reminder [("all", 1), ("b", 2)] "b").1 ↔
      ("all", 1) ∈ ([("all", 1), ("b", 2)] : Ledger) ∧ "all" ≠ "b") := by
  refine ⟨(reset_all_reserved [("all", 1), ("b", 2)] "b").1, ?_⟩
  exact (reset_all_reserved [("all", 1), ("b", 2)] "b").2 (by decide) ("all", 1)
